import Mathlib

/-!
Shallow embedding of the tg-archive storage layer (`tgarchive/db.py`) and the
parts of the sync controller / normalizer (`tgarchive/sync.py`) needed to
settle the frozen claims.

Modelling conventions:
* SQLite tables are lists of rows.  Tables whose primary key is an
  `INTEGER PRIMARY KEY` column alias the rowid, so a full table scan visits
  rows in ascending id order; queries that scan a table therefore sort the
  list by id first (`scanById`).
* Timestamps are UTC epoch seconds (`Int`).  `insert_message` stores
  `strftime("%Y-%m-%d %H:%M:%S")`, i.e. whole seconds, so `Int` seconds are
  exact.  SQLite's `datetime(date, off || ' hours')` modifier is modelled as
  adding the offset in seconds; `strftime('%Y%m', ...)` / `'%Y-%m-%d'`
  bucketing is modelled through a proleptic-Gregorian civil-date conversion
  (`civilFromDays`), which is the calendar SQLite uses in this date range.
* Python `None` becomes `Option.none`; fallible operations return `Except`.
-/

namespace TgArchive

/-! ### Civil calendar (the `%Y%m` / `%Y-%m-%d` buckets of SQLite strftime) -/

/-- Days since 1970-01-01 of the instant `t` (UTC epoch seconds). -/
def epochDay (t : Int) : Int := t.fdiv 86400

/-- Convert a day number (days since 1970-01-01) to a civil Gregorian date
`(year, month, day)`; the standard era-based algorithm. -/
def civilFromDays (z0 : Int) : Int × Int × Int :=
  let z := z0 + 719468
  let era := z.fdiv 146097
  let doe := z - era * 146097
  let yoe := (doe - doe.fdiv 1460 + doe.fdiv 36524 - doe.fdiv 146096).fdiv 365
  let y := yoe + era * 400
  let doy := doe - (365 * yoe + yoe.fdiv 4 - yoe.fdiv 100)
  let mp := (5 * doy + 2).fdiv 153
  let d := doy - (153 * mp + 2).fdiv 5 + 1
  let m := mp + (if mp < 10 then 3 else -9)
  (y + (if m ≤ 2 then 1 else 0), m, d)

/-- The `%Y%m` bucket of an instant: `year * 100 + month`
(the code compares against `"{}{:02d}".format(year, month)`). -/
def ymOf (t : Int) : Int :=
  let c := civilFromDays (epochDay t)
  c.1 * 100 + c.2.1

/-- `%Y%m` bucket after applying the display-timezone offset
(`datetime(date, offset || ' hours')`); `off` is the offset in seconds. -/
def localYM (off t : Int) : Int := ymOf (t + off)

/-- `%Y-%m-%d` bucket after applying the display-timezone offset; two
instants produce the same date string iff they fall on the same shifted
epoch day, so the day number serves as the bucket key. -/
def localDay (off t : Int) : Int := epochDay (t + off)

/-! ### Row types (schema in `db.py`) -/

/-- Row of the `users` table.  `tags` is stored as the space-joined string
produced by `insert_user` (`" ".join(u.tags)`). -/
structure UserRow where
  id : Int
  username : Option String
  first_name : Option String
  last_name : Option String
  tags : Option String
  avatar : Option String
  usertype : Option String
  deriving DecidableEq, Repr

/-- The `User` namedtuple (`db.py`).  `tags` is a Python list or `None`. -/
structure User where
  id : Int
  username : Option String
  first_name : Option String
  last_name : Option String
  tags : Option (List String)
  avatar : Option String
  usertype : Option String
  deriving DecidableEq, Repr

/-- The `Media` namedtuple / `media` table row.  For polls, `description`
holds a JSON-encoded option array; the JSON payload is modelled
structurally below (`PollOption`). -/
structure MediaRow where
  id : Int
  type : Option String
  url : Option String
  title : Option String
  description : Option String
  thumb : Option String
  deriving DecidableEq, Repr

/-- The `ForwardedMessageMetadata` namedtuple (input to the insert). -/
structure Fmd where
  id : Int
  originator_label : Option String
  source_url : Option String
  date : Option Int
  views : Option Int
  forwarded_count : Option Int
  deriving DecidableEq, Repr

/-- Row of the `forwarded_message_metadata` table (dates re-formatted to
whole seconds by `strftime`, modelled as the identity on `Int` seconds). -/
structure FmdRow where
  id : Int
  originator_label : Option String
  source_url : Option String
  date : Option Int
  views : Option Int
  forwarded_count : Option Int
  deriving DecidableEq, Repr

/-- The normalized `Message` namedtuple handed to `insert_message`. -/
structure Message where
  id : Int
  type : String
  date : Int
  edit_date : Option Int
  content : Option String
  reply_to : Option Int
  post_author : Option String
  user : User
  forwarded_message_metadata : Option Fmd
  media : Option MediaRow
  deriving DecidableEq, Repr

/-- Row of the `messages` table. -/
structure MsgRow where
  id : Int
  type : String
  date : Int
  edit_date : Option Int
  content : Option String
  reply_to : Option Int
  post_author : Option String
  user_id : Int
  forwarded_message_metadata_id : Option Int
  media_id : Option Int
  deriving DecidableEq, Repr

/-- Row of the `archived_chat_info` table (`id` is `AUTOINCREMENT`). -/
structure ChatInfoRow where
  id : Int
  peer_id : Int
  title : Option String
  peername : Option String
  desc : Option String
  archive_date : Int
  avatar : Option String
  deriving DecidableEq, Repr

/-- Chat info as fetched by `Sync._get_chat_info` (no storage id yet). -/
structure ChatInfoInput where
  peer_id : Int
  title : Option String
  peername : Option String
  desc : Option String
  archive_date : Int
  avatar : Option String
  deriving DecidableEq, Repr

/-! ### Storage engine (`db.py`) -/

/-- `id`-comparison used when SQLite orders rows of an
`INTEGER PRIMARY KEY` table (rowid order = id order). -/
def byIdLe (a b : MsgRow) : Prop := a.id ≤ b.id

instance : DecidableRel byIdLe := fun a b => Int.decLe a.id b.id

instance : IsTotal MsgRow byIdLe := ⟨fun a b => Int.le_total a.id b.id⟩

instance : IsTrans MsgRow byIdLe := ⟨fun _ _ _ h h' => le_trans h h'⟩

/-- Rows of the `messages` table in scan (= rowid = id) order. -/
def scanById (msgs : List MsgRow) : List MsgRow :=
  msgs.insertionSort byIdLe

/-- `DB.insert_user`: `INSERT ... ON CONFLICT (id) DO UPDATE SET` — on a
conflicting id every non-key field is overwritten by the new values. -/
def insert_user (tbl : List UserRow) (u : User) : List UserRow :=
  let row : UserRow :=
    { id := u.id, username := u.username, first_name := u.first_name,
      last_name := u.last_name,
      tags := u.tags.map (fun ts => String.intercalate " " ts),
      avatar := u.avatar, usertype := u.usertype }
  if tbl.any (fun r => r.id == u.id) then
    tbl.map (fun r => if r.id = u.id then row else r)
  else
    tbl ++ [row]

/-- `DB.insert_media`: `INSERT OR REPLACE` — a conflicting row is deleted
and the new row inserted. -/
def insert_media (tbl : List MediaRow) (m : MediaRow) : List MediaRow :=
  tbl.filter (fun r => r.id != m.id) ++ [m]

/-- `DB.insert_message`: `INSERT OR REPLACE`, storing `m.user.id`,
`m.forwarded_message_metadata.id` / `m.media.id` when present. -/
def insert_message (tbl : List MsgRow) (m : Message) : List MsgRow :=
  let row : MsgRow :=
    { id := m.id, type := m.type, date := m.date, edit_date := m.edit_date,
      content := m.content, reply_to := m.reply_to,
      post_author := m.post_author, user_id := m.user.id,
      forwarded_message_metadata_id := m.forwarded_message_metadata.map Fmd.id,
      media_id := m.media.map MediaRow.id }
  tbl.filter (fun r => r.id != m.id) ++ [row]

/-- `DB.insert_forwarded_message_metadata`: a plain `INSERT INTO`; the
table's `INTEGER PRIMARY KEY` raises `sqlite3.IntegrityError` on a
duplicate id. -/
def insert_forwarded_message_metadata (tbl : List FmdRow) (f : Fmd) :
    Except String (List FmdRow) :=
  if tbl.any (fun r => r.id == f.id) then
    Except.error "UNIQUE constraint failed: forwarded_message_metadata.id"
  else
    let row : FmdRow :=
      { id := f.id, originator_label := f.originator_label,
        source_url := f.source_url, date := f.date, views := f.views,
        forwarded_count := f.forwarded_count }
    Except.ok (tbl ++ [row])

/-- Boolean month filter of `get_messages`
(`strftime('%Y%m', messages.date) = ?` — the stored UTC date, no offset). -/
def monthMatches (year month : Option Int) (m : MsgRow) : Bool :=
  match year, month with
  | some y, some mo => ymOf m.date == y * 100 + mo
  | _, _ => true

/-- `DB.get_messages(year, month, last_id, limit)`.  The `WHERE` clause
keeps `messages.id > last_id` plus the optional month filter; `ORDER BY
messages.id LIMIT ?` is appended only when `limit` is truthy (Python
`if limit:` — both `None` and `0` skip it, leaving scan order, which for
this table is id order).  Joins to `users` / `forwarded_message_metadata`
/ `media` look up other tables by their primary key and so never change
which message rows appear nor their order; the result is modelled as the
message rows. -/
def get_messages (msgs : List MsgRow) (year month : Option Int)
    (last_id : Int) (limit : Option Nat) : List MsgRow :=
  let rows := (scanById msgs).filter
    (fun m => (last_id < m.id : Bool) && monthMatches year month m)
  match limit with
  | some n => if n = 0 then rows else ((scanById rows).take n)
  | none => rows

/-- `get_messages` with `limit` (and `year`/`month`) left at their Python
defaults: `def get_messages(self, year=None, month=None, last_id=0,
limit=500)` — an absent `limit` argument means `limit=500`. -/
def get_messages_defaults (msgs : List MsgRow) (last_id : Int) :
    List MsgRow :=
  get_messages msgs none none last_id (some 500)

/-- `DB.get_message_count(year, month)`: counts rows whose stored (UTC)
`%Y%m` bucket matches — no display-timezone offset is applied. -/
def get_message_count (msgs : List MsgRow) (year month : Int) : Nat :=
  msgs.countP (fun m => ymOf m.date == year * 100 + month)

/-- Distinct keys in ascending order: SQLite `GROUP BY k ... ` emits one
output row per distinct key, ordered by the key. -/
def sortedKeys (l : List Int) : List Int :=
  l.dedup.insertionSort (· ≤ ·)

/-- Output row of `get_timeline` (`Month` namedtuple); the date / slug /
label fields are string renderings of the `%Y-%m` key, modelled by the
numeric key. -/
structure MonthOut where
  ym : Int
  count : Nat
  deriving DecidableEq, Repr

/-- `DB.get_timeline`: groups all messages by display-shifted `%Y-%m`
bucket and counts each group; `off` is the display-timezone offset in
seconds (the code passes `tz.utcoffset(...) / 3600` hours to
`datetime(date, ? || ' hours')`). -/
def get_timeline (msgs : List MsgRow) (off : Int) : List MonthOut :=
  let keys := sortedKeys (msgs.map (fun m => localYM off m.date))
  keys.map (fun k =>
    { ym := k, count := msgs.countP (fun m => localYM off m.date == k) })

/-- `math.ceil(n / multiple)` of `db._page` for positive `multiple`
(Python raises `ZeroDivisionError` on `multiple = 0`; every call site
passes the positive page size). -/
def pageOf (n multiple : Nat) : Nat := (n + multiple - 1) / multiple

/-- `ROW_NUMBER() OVER()` in scan order: pair each row with its 1-based
rank, starting at `n`. -/
def rowNumberFrom (n : Nat) : List MsgRow → List (Nat × MsgRow)
  | [] => []
  | m :: ms => (n, m) :: rowNumberFrom (n + 1) ms

/-- The inner subquery of `get_dayline`: that month's messages (display
timezone bucket) in id order. -/
def monthRows (msgs : List MsgRow) (off ym : Int) : List MsgRow :=
  (scanById msgs).filter (fun m => localYM off m.date == ym)

/-- Output row of `get_dayline` (`Day` namedtuple); `day` is the epoch-day
key of the `%Y-%m-%d 00:00:00` group string. -/
structure DayOut where
  day : Int
  count : Nat
  page : Nat
  deriving DecidableEq, Repr

/-- `DB.get_dayline(year, month, limit)`: ranks the month's messages in id
order (`ROW_NUMBER`), groups by display-shifted calendar day and emits
`COUNT(*)` and `PAGE(rank, limit)`.  `rank` is a bare column under
`GROUP BY`; SQLite evaluates it on the group's first row in subquery
order, i.e. the day's first message. -/
def get_dayline (msgs : List MsgRow) (off ym : Int) (psize : Nat) :
    List DayOut :=
  let month := monthRows msgs off ym
  let ranked := rowNumberFrom 1 month
  let days := sortedKeys (month.map (fun m => localDay off m.date))
  days.map (fun d =>
    let grp := ranked.filter (fun p => localDay off p.2.date == d)
    { day := d, count := grp.length,
      page := match grp with
        | [] => 0
        | p :: _ => pageOf p.1 psize })

/-- `id`-comparison for `archived_chat_info` rows. -/
def ciByIdLe (a b : ChatInfoRow) : Prop := a.id ≤ b.id

instance : DecidableRel ciByIdLe := fun a b => Int.decLe a.id b.id

instance : IsTotal ChatInfoRow ciByIdLe := ⟨fun a b => Int.le_total a.id b.id⟩

instance : IsTrans ChatInfoRow ciByIdLe := ⟨fun _ _ _ h h' => le_trans h h'⟩

/-- `DB.get_last_archived_chat_info`: `ORDER BY id DESC LIMIT 1`, i.e. the
row with the largest id. -/
def get_last_archived_chat_info (tbl : List ChatInfoRow) :
    Option ChatInfoRow :=
  (tbl.insertionSort ciByIdLe).getLast?

/-- Next `AUTOINCREMENT` id of `archived_chat_info`. -/
def nextChatInfoId (tbl : List ChatInfoRow) : Int :=
  (tbl.map ChatInfoRow.id).foldr max 0 + 1

/-- `DB.insert_archived_chat_info`: appends a fresh row (new autoincrement
id); `archive_date` already set by the caller. -/
def insert_archived_chat_info (tbl : List ChatInfoRow) (c : ChatInfoInput) :
    List ChatInfoRow :=
  let row : ChatInfoRow :=
    { id := nextChatInfoId tbl, peer_id := c.peer_id,
      title := c.title, peername := c.peername, desc := c.desc,
      archive_date := c.archive_date, avatar := c.avatar }
  tbl ++ [row]

/-- `DB.update_archived_chat_info`: `UPDATE ... WHERE id = ?` — modifies
the matching row in place, adding no row. -/
def update_archived_chat_info (tbl : List ChatInfoRow) (c : ChatInfoRow) :
    List ChatInfoRow :=
  tbl.map (fun r =>
    if r.id = c.id then
      { r with
        peer_id := c.peer_id, title := c.title,
        peername := c.peername, desc := c.desc,
        archive_date := c.archive_date, avatar := c.avatar }
    else r)

/-! ### Sync controller and normalizer (`sync.py`) -/

/-- Telethon entities as seen by `Sync._get_user` / `_get_real_user_id`.
Only the attributes the code reads are modelled; `hasattr` checks follow
the telethon classes (`User` has `bot`/`scam`/`fake`/`deleted`, `Chat`
has a `title`, `Channel` has `title`/`scam`/`fake`, `ChannelForbidden`
has a `title` and is not a `Channel` subclass). -/
inductive TLEntity where
  | user (id : Int) (bot scam fake deleted : Bool)
      (username first_name last_name : Option String)
  | chat (id : Int) (title : Option String) (username : Option String)
  | channel (id : Int) (title : Option String) (username : Option String)
      (scam fake : Bool)
  | channelForbidden (id : Int) (title : String)
  deriving DecidableEq, Repr

/-- The entity's native `.id` attribute. -/
def TLEntity.nid : TLEntity → Int
  | .user i _ _ _ _ _ _ _ => i
  | .chat i _ _ => i
  | .channel i _ _ _ _ => i
  | .channelForbidden i _ => i

/-- The entity's `.title` attribute (`none` when the class has no such
attribute, as for `telethon.tl.types.User`). -/
def TLEntity.tltitle : TLEntity → Option String
  | .user _ _ _ _ _ _ _ _ => none
  | .chat _ t _ => t
  | .channel _ t _ _ _ => t
  | .channelForbidden _ t => some t

/-- Argument of `Sync._get_real_user_id`: a telethon entity or a stored
`User` namedtuple. -/
inductive RealIdArg where
  | tl (e : TLEntity)
  | dbUser (u : User)
  deriving DecidableEq, Repr

/-- `Sync._get_real_user_id`: `Chat → -id`; `Channel → -id - 10^12`; a
`User` namedtuple is transformed by its `usertype`; every other entity
(including `ChannelForbidden`, which is not a `Channel` subclass) keeps
its native id. -/
def get_real_user_id : RealIdArg → Int
  | .tl (.chat i _ _) => -i
  | .tl (.channel i _ _ _ _) => -i - 1000000000000
  | .dbUser u =>
    if u.usertype = some "chat" then -u.id
    else if u.usertype = some "channel/mega_group" then
      -u.id - 1000000000000
    else u.id
  | .tl e => e.nid

/-- `create_empty_user` (inner function of `Sync._get_user`): a stub
`User` carrying only the id. -/
def create_empty_user (user_id : Int) : User :=
  { id := user_id, username := none, first_name := none, last_name := none,
    tags := none, avatar := none, usertype := none }

/-- `Sync._get_user(u, chat)`.  `cache` is `fetched_user_ids`;
`avatarOf` stands for the external `_downloadAvatarForUserOrChat`
collaborator. -/
def get_user (cache : List Int) (u chat : Option TLEntity)
    (avatarOf : TLEntity → Option String) : Option User :=
  match u with
  | none =>
    -- chat-as-sender path: `if not (chat and chat.title): return None`
    match chat with
    | none => none
    | some c =>
      match c.tltitle with
      | none => none
      | some ctitle =>
        let real_chat_id := get_real_user_id (.tl c)
        if real_chat_id ∈ cache then some (create_empty_user real_chat_id)
        else
          let usertype :=
            match c with
            | .channel _ _ _ _ _ => "channel/mega_group"
            | _ => "chat"
          let cUsername :=
            match c with
            | .chat _ _ un => un
            | .channel _ _ un _ _ => un
            | _ => none
          some
            { id := real_chat_id, username := cUsername,
              first_name := some ctitle, last_name := none,
              tags := some ["group_self"], avatar := avatarOf c,
              usertype := some usertype }
  | some e =>
    let real_user_id := get_real_user_id (.tl e)
    if real_user_id ∈ cache then some (create_empty_user real_user_id)
    else
      match e with
      | .channelForbidden _ t =>
        some
          { id := real_user_id, username := none, first_name := some t,
            last_name := none, tags := some [], avatar := none,
            usertype := some "channel" }
      | .user _ bot scam fake deleted un fn ln =>
        let tags := (if bot then ["bot"] else []) ++
          (if scam then ["scam"] else []) ++
          (if fake then ["fake"] else []) ++
          (if deleted then ["deleted"] else [])
        let fn := if deleted then some "Deleted" else fn
        let ln := if deleted then some "Account" else ln
        some
          { id := real_user_id, username := un, first_name := fn,
            last_name := ln, tags := some tags, avatar := avatarOf e,
            usertype := some "user" }
      | .channel _ t un scam fake =>
        let tags := (if scam then ["scam"] else []) ++
          (if fake then ["fake"] else [])
        some
          { id := real_user_id, username := un,
            first_name := some "Channel: ", last_name := t,
            tags := some tags, avatar := avatarOf e,
            usertype := some "channel" }
      | .chat _ _ _ =>
        -- a bare `Chat` as sender falls through to the "normal users"
        -- branch: no `bot`/`deleted` attributes, `first_name`/`last_name`
        -- are taken only for real users, usertype `user`
        some
          { id := real_user_id, username := none, first_name := none,
            last_name := none, tags := some [], avatar := avatarOf e,
            usertype := some "user" }

/-- The transformed id `Sync._get_user` tests against `fetched_user_ids`
for a message's acting participant (the sender entity when present,
otherwise the chat — provided it has a title). -/
def participantId (u chat : Option TLEntity) : Option Int :=
  match u with
  | some e => some (get_real_user_id (.tl e))
  | none =>
    match chat with
    | none => none
    | some c =>
      match c.tltitle with
      | none => none
      | some _ => some (get_real_user_id (.tl c))

/-! #### Poll normalization (`Sync._make_poll`) -/

/-- A poll answer (`msg.media.poll.answers[i].text.text`). -/
structure PollAnswer where
  text : String
  deriving DecidableEq, Repr

/-- A tallied poll result (`msg.media.results.results[i]`). -/
structure PollResult where
  voters : Nat
  correct : Bool
  deriving DecidableEq, Repr

/-- One JSON object of the encoded poll description:
`{label, count, percent, correct}`.  `percent` is absent (`none`) for an
option the result loop never reached.  Python computes `percent` in float
arithmetic; it is modelled in `ℚ` (exact at every claim input). -/
structure PollOption where
  label : String
  count : Nat
  percent : Option ℚ
  correct : Bool
  deriving DecidableEq, Repr

/-- The `Media` produced for a poll; `description` is the JSON-decoded
payload (the code stores `json.dumps(options)` and `DB._make_message`
decodes it back with `json.loads`). -/
structure PollMedia where
  id : Int
  type : String
  url : Option String
  title : String
  description : List PollOption
  thumb : Option String
  deriving DecidableEq, Repr

/-- `Sync._make_poll`: `None` without tallied results, else one option per
answer, updated index-wise from the results list
(`options[i]["count"] = r.voters`, `percent = r.voters / total * 100 if
total > 0 else 0`, `correct = r.correct`).  The update loop indexes
`options[i]`, which in Python requires `len(results) ≤ len(answers)`;
the model leaves extra results unused. -/
def make_poll (msgId : Int) (question : String) (answers : List PollAnswer)
    (results : Option (List PollResult)) (total_voters : Nat) :
    Option PollMedia :=
  match results with
  | none => none
  | some [] => none
  | some rs =>
    let options := answers.enum.map (fun (i, a) =>
      match rs[i]? with
      | some r =>
        { label := a.text, count := r.voters,
              percent := some (if 0 < total_voters then
                (r.voters : ℚ) / (total_voters : ℚ) * 100 else 0),
              correct := r.correct : PollOption }
      | none =>
        { label := a.text, count := 0, percent := none,
              correct := false : PollOption })
    some
      { id := msgId, type := "poll", url := none, title := question,
        description := options, thumb := none }

/-! #### Batch fetch and flood-wait handling (`Sync._fetch_messages`) -/

/-- Outcome of one `client.get_messages` call: a batch, or a
`FloodWaitError` telling the caller to wait `seconds`. -/
inductive ClientResponse where
  | batch (msgs : List Int)
  | floodWaitError (seconds : Nat)
  deriving DecidableEq, Repr

/-- Observable effects of one `Sync._fetch_messages` call: the
`time.sleep` calls it performs, the number of `client.get_messages`
requests it issues, and its return value (`none` = Python `None`). -/
structure FetchEffects where
  sleeps : List Nat
  requests : Nat
  result : Option (List Int)
  deriving DecidableEq, Repr

/-- `Sync._fetch_messages`: issues a single `client.get_messages` request;
on `FloodWaitError` the `except` arm only logs ("flood waited: have to
wait {} seconds") and the function falls off the end, returning `None` —
it performs no sleep and no second request. -/
def fetch_messages (resp : ClientResponse) : FetchEffects :=
  match resp with
  | .batch ms => { sleeps := [], requests := 1, result := some ms }
  | .floodWaitError _ => { sleeps := [], requests := 1, result := none }

/-- `Sync._get_messages` starts with `for m in messages:` over the value
returned by `_fetch_messages`; iterating Python `None` raises
`TypeError`. -/
def iterate_batch (r : Option (List Int)) : Except String (List Int) :=
  match r with
  | some ms => Except.ok ms
  | none => Except.error "TypeError: NoneType object is not iterable"

/-! #### Chat-info reconciliation (`Sync.sync`, lines 60–98) -/

/-- The chat-info step of `Sync.sync`: read the latest persisted
`ArchivedChatInfo`; `exit(1)` on a `peer_id` mismatch; insert a new row
when any of title/peername/desc/avatar changed (`need_update`) or no row
exists; otherwise `update_archived_chat_info` rewrites the existing
latest row in place with a fresh `archive_date` (`now`). -/
def sync_chat_info (tbl : List ChatInfoRow) (newInfo : ChatInfoInput)
    (now : Int) : Except String (List ChatInfoRow) :=
  match get_last_archived_chat_info tbl with
  | none => Except.ok (insert_archived_chat_info tbl newInfo)
  | some old =>
    if old.peer_id ≠ newInfo.peer_id then
      Except.error "Group in configuration does not match the archived chat ID"
    else if old.title ≠ newInfo.title ∨ old.peername ≠ newInfo.peername ∨
        old.desc ≠ newInfo.desc ∨ old.avatar ≠ newInfo.avatar then
      Except.ok (insert_archived_chat_info tbl newInfo)
    else
      let updated_date_info : ChatInfoRow :=
        { id := old.id, peer_id := old.peer_id, peername := old.peername,
          title := old.title, desc := old.desc, archive_date := now,
          avatar := old.avatar }
      Except.ok (update_archived_chat_info tbl updated_date_info)

/-! #### The per-message user-insert gate (`Sync.sync`, lines 112–114) -/

/-- The user handling of the fetch loop: for each normalized message, if
`m.user.id not in fetched_user_ids` then `insert_user` is called and the
id added to the set.  Returns the final cache and the sequence of `User`
records actually passed to `insert_user`. -/
def sync_user_loop : List Int → List Message → List Int × List User
  | cache, [] => (cache, [])
  | cache, m :: ms =>
    if m.user.id ∈ cache then sync_user_loop cache ms
    else
      let rest := sync_user_loop (m.user.id :: cache) ms
      (rest.1, m.user :: rest.2)

/-- One `Sync.sync` run as it affects `fetched_user_ids`.
`fetched_user_ids` is a class attribute initialised to the empty set once,
when the class body is evaluated; no statement of `sync` clears it, so a
run simply continues from whatever the set already contains (`state`). -/
def sync_run (state : List Int) (msgs : List Message) :
    List Int × List User :=
  sync_user_loop state msgs

/-! ### Concrete data used by witnesses and counterexamples -/

/-- A minimal `messages` row: id `i`, stored UTC date `t` (epoch sec). -/
def msgAt (i t : Int) : MsgRow :=
  { id := i, type := "message", date := t, edit_date := none,
    content := none, reply_to := none, post_author := none,
    user_id := 1, forwarded_message_metadata_id := none, media_id := none }

/-- Four same-month messages, two on 2024-01-01 (epoch day 19723) and two
on 2024-01-02 (epoch day 19724), in id order: days D1,D1,D2,D2. -/
def exDayMsgs : List MsgRow :=
  [msgAt 1 1704103200, msgAt 2 1704106800,
   msgAt 3 1704189600, msgAt 4 1704193200]

/-- 501 messages with ids 1..501 (all dated at epoch 0). -/
def c2msgs : List MsgRow :=
  (List.range 501).map (fun i => msgAt ((i : Int) + 1) 0)

/-- First and second write of user id 5 with different field values. -/
def c1u1 : User :=
  { id := 5, username := some "alice", first_name := some "Alice",
    last_name := none, tags := some ["bot"], avatar := none,
    usertype := some "user" }

def c1u2 : User :=
  { id := 5, username := some "alice2", first_name := some "Alicia",
    last_name := some "B", tags := some ["bot", "scam"],
    avatar := some "avatar_5.jpg", usertype := some "user" }

/-- First and second write of media id 9 with different field values. -/
def c1m1 : MediaRow :=
  { id := 9, type := some "photo", url := some "9.jpg",
    title := some "a", description := none, thumb := none }

def c1m2 : MediaRow :=
  { id := 9, type := some "webpage", url := some "http://x",
    title := some "b", description := some "d", thumb := some "t" }

/-- First and second write of message id 9 with different field values. -/
def c1msg1 : Message :=
  { id := 9, type := "message", date := 1704103200, edit_date := none,
    content := some "hello", reply_to := none, post_author := none,
    user := c1u1, forwarded_message_metadata := none, media := none }

def c1msg2 : Message :=
  { id := 9, type := "message", date := 1704103200,
    edit_date := some 1704106800, content := some "hello (edited)",
    reply_to := some 3, post_author := some "p", user := c1u2,
    forwarded_message_metadata := none, media := some c1m2 }

/-- Re-ingest of the same forwarded message: metadata id 9 twice. -/
def c1f1 : Fmd :=
  { id := 9, originator_label := some "Orig", source_url := none,
    date := some 1704000000, views := some 10, forwarded_count := some 2 }

def c1f2 : Fmd :=
  { id := 9, originator_label := some "Orig", source_url := none,
    date := some 1704000000, views := some 12, forwarded_count := some 3 }

/-- The row the first metadata insert produces. -/
def c1frow1 : FmdRow :=
  { id := 9, originator_label := some "Orig", source_url := none,
    date := some 1704000000, views := some 10, forwarded_count := some 2 }

/-- A participant with user id 7. -/
def c9user : User :=
  { id := 7, username := some "bob", first_name := some "Bob",
    last_name := none, tags := some [], avatar := none,
    usertype := some "user" }

/-- A normalized message whose acting participant has user id 7. -/
def c9msg : Message :=
  { id := 1, type := "message", date := 1704103200, edit_date := none,
    content := some "hi", reply_to := none, post_author := none,
    user := c9user, forwarded_message_metadata := none, media := none }

/-- The single persisted chat-info row before the second sync run. -/
def c4row : ChatInfoRow :=
  { id := 1, peer_id := 10, title := some "T", peername := some "pn",
    desc := some "d", archive_date := 100, avatar := none }

/-- Freshly fetched chat info, metadata unchanged from `c4row`. -/
def c4new : ChatInfoInput :=
  { peer_id := 10, title := some "T", peername := some "pn",
    desc := some "d", archive_date := 999, avatar := none }

/-- `c4row` with its archive date refreshed in place. -/
def c4rowRefreshed : ChatInfoRow :=
  { id := 1, peer_id := 10, title := some "T", peername := some "pn",
    desc := some "d", archive_date := 200, avatar := none }

/-- The users-table row left by the second write of user id 5. -/
def c1urow2 : UserRow :=
  { id := 5, username := some "alice2", first_name := some "Alicia",
    last_name := some "B", tags := some "bot scam",
    avatar := some "avatar_5.jpg", usertype := some "user" }

/-- The messages-table row left by the second write of message id 9. -/
def c1mrow2 : MsgRow :=
  { id := 9, type := "message", date := 1704103200,
    edit_date := some 1704106800, content := some "hello (edited)",
    reply_to := some 3, post_author := some "p", user_id := 5,
    forwarded_message_metadata_id := none, media_id := some 9 }

/-! ## Theorems -/

/-- C1: the claim asserts all four persist operations tolerate a
duplicate-id second call.  `insert_user` (upsert), `insert_media` and
`insert_message` (`INSERT OR REPLACE`) do — one row remains, bearing the
second call's values — but `insert_forwarded_message_metadata` is a plain
`INSERT` into a primary-keyed table: the second call with the same id
raises `sqlite3.IntegrityError` instead of succeeding. -/
theorem c1_duplicate_persist :
    insert_user (insert_user [] c1u1) c1u2 = [c1urow2] ∧
    insert_media (insert_media [] c1m1) c1m2 = [c1m2] ∧
    insert_message (insert_message [] c1msg1) c1msg2 = [c1mrow2] ∧
    insert_forwarded_message_metadata [] c1f1 = Except.ok [c1frow1] ∧
    insert_forwarded_message_metadata [c1frow1] c1f2 =
      Except.error "UNIQUE constraint failed: forwarded_message_metadata.id" :=
  ⟨rfl, rfl, rfl, rfl, rfl⟩

/-- C6: on a `FloodWaitError` the fetch helper performs no sleep and no
second request — the `except` arm only logs and the function returns
`None`; the caller's `for m in messages:` then raises `TypeError`, so the
batch is never retried (the claim says the controller sleeps the
indicated time and re-requests the same batch). -/
theorem c6_floodwait_not_retried (s : Nat) :
    fetch_messages (ClientResponse.floodWaitError s) =
      { sleeps := [], requests := 1, result := none } ∧
    iterate_batch (fetch_messages (ClientResponse.floodWaitError s)).result =
      Except.error "TypeError: NoneType object is not iterable" :=
  ⟨rfl, rfl⟩

/-- C9 counterexample: `fetched_user_ids` is not cleared when a run
begins.  After a first run has cached user id 7, a second run in the same
process starts with cache `[7]` — not the empty set the claim requires —
and consequently performs no `insert_user` call for that user. -/
theorem c9_cache_persists_counterexample :
    (sync_run [] [c9msg]).1 = [7] ∧
    sync_run (sync_run [] [c9msg]).1 [c9msg] = ([7], []) ∧
    (sync_run [] [c9msg]).1 ≠ ([] : List Int) :=
  ⟨rfl, rfl, by intro h; exact List.cons_ne_nil 7 [] ((rfl : (sync_run [] [c9msg]).1 = [7]) ▸ h)⟩

/-- Monotonicity/skip behaviour of the user-insert gate: ids already in
the cache survive the whole run, and no user whose id was already cached
is ever passed to `insert_user`. -/
theorem sync_user_loop_invariant (msgs : List Message) :
    ∀ cache : List Int,
      (∀ i, i ∈ cache → i ∈ (sync_user_loop cache msgs).1) ∧
      (∀ u, u ∈ (sync_user_loop cache msgs).2 → u.id ∉ cache) := by
  induction msgs with
  | nil => intro cache; exact ⟨fun i h => h, fun u h => absurd h (by simp [sync_user_loop])⟩
  | cons m ms ih =>
    intro cache
    by_cases hm : m.user.id ∈ cache
    · have h1 := (ih cache).1
      have h2 := (ih cache).2
      constructor
      · intro i hi
        simpa [sync_user_loop, hm] using h1 i hi
      · intro u hu
        exact h2 u (by simpa [sync_user_loop, hm] using hu)
    · have h1 := (ih (m.user.id :: cache)).1
      have h2 := (ih (m.user.id :: cache)).2
      constructor
      · intro i hi
        simpa [sync_user_loop, hm] using h1 i (List.mem_cons_of_mem _ hi)
      · intro u hu
        have hu' : u = m.user ∨ u ∈ (sync_user_loop (m.user.id :: cache) ms).2 := by
          simpa [sync_user_loop, hm] using hu
        rcases hu' with rfl | hu'
        · exact hm
        · intro hc
          exact h2 u hu' (List.mem_cons_of_mem _ hc)

/-- C9 amended: the identity cache is a class attribute initialised once;
`sync` never clears it, so a run continues from the prior contents: every
previously cached id is still cached when and after the run executes, and
no user with a previously cached id is written during the run. -/
theorem c9_cache_never_cleared (prior : List Int) (msgs : List Message) :
    (∀ i, i ∈ prior → i ∈ (sync_run prior msgs).1) ∧
    (∀ u, u ∈ (sync_run prior msgs).2 → u.id ∉ prior) :=
  sync_user_loop_invariant msgs prior

/-- Witness for C9's amended theorem at a concrete input: id 7, cached by
an earlier run, is still in the cache during the next run. -/
theorem c9_cache_never_cleared_witness :
    (7 : Int) ∈ [(7 : Int)] ∧ (7 : Int) ∈ (sync_run [7] [c9msg]).1 :=
  ⟨by decide, (c9_cache_never_cleared [7] [c9msg]).1 7 (by decide)⟩

/-- C4 counterexample: a sync run whose fetched metadata is unchanged
does **not** insert a new `ArchivedChatInfo` row.  Starting from the
single row `c4row`, `sync_chat_info` takes the `need_update = False`
branch and rewrites that same row in place (`UPDATE ... WHERE id = 1`)
with the fresh archive date: the table still has exactly one row. -/
theorem c4_unchanged_run_counterexample :
    sync_chat_info [c4row] c4new 200 = Except.ok [c4rowRefreshed] :=
  rfl

/-- C4 amended: on a run whose fetched metadata equals the latest
persisted row's, no row is added — the table keeps its length, every
other row is untouched, and the latest row (same id, peer_id, title) is
rewritten in place with the fresh archive date.  (A new row is inserted
only when the table is empty or some of title/peername/desc/avatar
changed.) -/
theorem c4_unchanged_run_updates_in_place
    (tbl : List ChatInfoRow) (newInfo : ChatInfoInput) (now : Int)
    (old : ChatInfoRow)
    (hsort : List.Sorted ciByIdLe tbl)
    (hlast : get_last_archived_chat_info tbl = some old)
    (hpeer : old.peer_id = newInfo.peer_id)
    (ht : old.title = newInfo.title) (hpn : old.peername = newInfo.peername)
    (hd : old.desc = newInfo.desc) (hav : old.avatar = newInfo.avatar) :
    ∃ tbl', sync_chat_info tbl newInfo now = Except.ok tbl' ∧
      tbl'.length = tbl.length ∧
      get_last_archived_chat_info tbl' =
        some { old with archive_date := now } ∧
      ∀ r ∈ tbl, r.id ≠ old.id → r ∈ tbl' := by
  have hsid : tbl.insertionSort ciByIdLe = tbl := hsort.insertionSort_eq
  have hold : tbl.getLast? = some old := by
    rw [get_last_archived_chat_info, hsid] at hlast
    exact hlast
  have hstep : sync_chat_info tbl newInfo now =
      Except.ok (update_archived_chat_info tbl
        { id := old.id, peer_id := old.peer_id, peername := old.peername,
          title := old.title, desc := old.desc, archive_date := now,
          avatar := old.avatar }) := by
    simp only [sync_chat_info, hlast]
    rw [if_neg (by simp [hpeer]), if_neg (by simp [ht, hpn, hd, hav])]
  refine ⟨_, hstep, List.length_map _ _, ?_, ?_⟩
  · have hsort' : List.Sorted ciByIdLe (update_archived_chat_info tbl
        { id := old.id, peer_id := old.peer_id, peername := old.peername,
          title := old.title, desc := old.desc, archive_date := now,
          avatar := old.avatar }) := by
      simp only [update_archived_chat_info]
      refine List.Pairwise.map _ ?_ hsort
      intro a b hab
      simp only [ciByIdLe] at hab ⊢
      split <;> split <;> simpa using hab
    rw [get_last_archived_chat_info, hsort'.insertionSort_eq]
    simp only [update_archived_chat_info, List.getLast?_map, hold,
      Option.map_some']
    simp
  · intro r hr hne
    simp only [update_archived_chat_info]
    exact List.mem_map.mpr ⟨r, hr, by simp [hne]⟩

/-- Witness for C4's amended theorem at the concrete one-row table. -/
theorem c4_unchanged_run_updates_in_place_witness :
    List.Sorted ciByIdLe [c4row] ∧
    get_last_archived_chat_info [c4row] = some c4row ∧
    (∃ tbl', sync_chat_info [c4row] c4new 200 = Except.ok tbl' ∧
      tbl'.length = [c4row].length ∧
      get_last_archived_chat_info tbl' =
        some { c4row with archive_date := 200 } ∧
      ∀ r ∈ [c4row], r.id ≠ c4row.id → r ∈ tbl') :=
  ⟨List.sorted_singleton c4row, rfl,
    c4_unchanged_run_updates_in_place [c4row] c4new 200 c4row
      (List.sorted_singleton c4row) rfl rfl rfl rfl rfl rfl⟩

/-- C7: the synthetic-id transform maps a chat with native id `C` to
`-C` and a channel with native id `K` to `-K - 10^12`; the images are
negative (distinct from every positive real user id) and distinct from
each other whenever the native ids are plausible, i.e. positive and below
the `10^12` offset; and the normalizer applies the same transform on the
write path and the lookup path — the id carried by the `User` it returns
(whether the cached stub or the freshly built record) is exactly
`get_real_user_id` of the entity, the value it also tests against the
cache. -/
theorem c7_identity_transform (C K : Int) (ct cu kt ku : Option String)
    (ks kf : Bool) (t : String) (avatarOf : TLEntity → Option String)
    (hC : 0 < C) (hC12 : C < 1000000000000)
    (hK : 0 < K) (hK12 : K < 1000000000000) :
    get_real_user_id (.tl (.chat C ct cu)) = -C ∧
    get_real_user_id (.tl (.channel K kt ku ks kf)) = -K - 1000000000000 ∧
    -C ≠ -K - 1000000000000 ∧
    (∀ p : Int, 0 < p → -C ≠ p ∧ -K - 1000000000000 ≠ p) ∧
    (∀ cache, (get_user cache none (some (.chat C (some t) cu))
        avatarOf).map User.id =
      some (get_real_user_id (.tl (.chat C (some t) cu)))) ∧
    (∀ cache, (get_user cache (some (.channel K kt ku ks kf)) none
        avatarOf).map User.id =
      some (get_real_user_id (.tl (.channel K kt ku ks kf)))) := by
  refine ⟨rfl, rfl, by omega, fun p hp => ⟨by omega, by omega⟩, ?_, ?_⟩
  · intro cache
    by_cases h : get_real_user_id (.tl (.chat C (some t) cu)) ∈ cache
    · simp [get_user, TLEntity.tltitle, h, create_empty_user]
    · simp [get_user, TLEntity.tltitle, h]
  · intro cache
    by_cases h : get_real_user_id (.tl (.channel K kt ku ks kf)) ∈ cache
    · simp [get_user, h, create_empty_user]
    · simp [get_user, h]

/-- Witness for C7 at chat id 123 and channel id 456. -/
theorem c7_identity_transform_witness :
    (0 : Int) < 123 ∧ (123 : Int) < 1000000000000 ∧
    (0 : Int) < 456 ∧ (456 : Int) < 1000000000000 ∧
    (get_real_user_id (.tl (.chat 123 none none)) = -123 ∧
     get_real_user_id (.tl (.channel 456 none none false false)) =
       -456 - 1000000000000 ∧
     (-123 : Int) ≠ -456 - 1000000000000 ∧
     (∀ p : Int, 0 < p →
       (-123 : Int) ≠ p ∧ (-456 : Int) - 1000000000000 ≠ p) ∧
     (∀ cache, (get_user cache none (some (.chat 123 (some "G") none))
         (fun _ => none)).map User.id =
       some (get_real_user_id (.tl (.chat 123 (some "G") none)))) ∧
     (∀ cache, (get_user cache
         (some (.channel 456 none none false false)) none
         (fun _ => none)).map User.id =
       some (get_real_user_id
         (.tl (.channel 456 none none false false))))) :=
  ⟨by norm_num, by norm_num, by norm_num, by norm_num,
    c7_identity_transform 123 456 none none none none false false "G"
      (fun _ => none) (by norm_num) (by norm_num) (by norm_num)
      (by norm_num)⟩

/-- C8: for a poll with tallied results, the normalizer emits a Media of
type `poll` whose (JSON-decoded) description carries, for each option
with voter count `v` at an index the results cover, `count = v` and
`percent = v / total * 100` when `total > 0` and `0` when `total = 0`. -/
theorem c8_poll_percent (msgId : Int) (question : String)
    (answers : List PollAnswer) (results : List PollResult) (total : Nat)
    (hne : results ≠ []) :
    ∃ media, make_poll msgId question answers (some results) total =
        some media ∧
      media.type = "poll" ∧
      ∀ (i : Nat) (r : PollResult) (a : PollAnswer),
        results[i]? = some r → answers[i]? = some a →
        media.description[i]? =
          some (PollOption.mk a.text r.voters
            (some (if 0 < total then
              (r.voters : ℚ) / (total : ℚ) * 100 else 0))
            r.correct) := by
  cases results with
  | nil => exact absurd rfl hne
  | cons r0 rs0 =>
    refine ⟨_, rfl, rfl, ?_⟩
    intro i r a hr ha
    simp only [make_poll, List.enum, List.getElem?_map,
      List.getElem?_enumFrom, ha, Nat.zero_add, Option.map_some']
    simp [hr]

/-- Witness for C8: voter counts `[3, 1]` with `total = 4` decode to
percents `[75, 25]` — the first conjunct evaluates the poll normalizer at
that input, the rest instantiates the theorem there. -/
theorem c8_poll_percent_witness :
    (make_poll 9 "q" [⟨"a"⟩, ⟨"b"⟩]
        (some [⟨3, false⟩, ⟨1, false⟩]) 4).map
      (fun md => md.description.map PollOption.percent) =
      some [some 75, some 25] ∧
    ([⟨3, false⟩, ⟨1, false⟩] : List PollResult) ≠ [] ∧
    (∃ media, make_poll 9 "q" [⟨"a"⟩, ⟨"b"⟩]
        (some [⟨3, false⟩, ⟨1, false⟩]) 4 = some media ∧
      media.type = "poll" ∧
      ∀ (i : Nat) (r : PollResult) (a : PollAnswer),
        ([⟨3, false⟩, ⟨1, false⟩] : List PollResult)[i]? = some r →
        ([⟨"a"⟩, ⟨"b"⟩] : List PollAnswer)[i]? = some a →
        media.description[i]? =
          some (PollOption.mk a.text r.voters
            (some (if 0 < 4 then (r.voters : ℚ) / (4 : ℚ) * 100 else 0))
            r.correct)) :=
  ⟨by norm_num [make_poll, List.enum, List.enumFrom], by simp,
    c8_poll_percent 9 "q" [⟨"a"⟩, ⟨"b"⟩] [⟨3, false⟩, ⟨1, false⟩] 4
      (by simp)⟩

/-- C10: whenever the transformed id of a message's acting participant is
already in the identity cache, `_get_user` returns the stub
`create_empty_user id` — only the id set, username / first_name /
last_name / tags / avatar / usertype all `None`; when the id is not yet
cached the returned record carries the same transformed id but is not the
stub (it carries the participant's details). -/
theorem c10_cached_participant_stub (cache : List Int)
    (u chat : Option TLEntity) (avatarOf : TLEntity → Option String)
    (i : Int) (hid : participantId u chat = some i) :
    (i ∈ cache →
      get_user cache u chat avatarOf = some (create_empty_user i)) ∧
    (i ∉ cache →
      (get_user cache u chat avatarOf).map User.id = some i ∧
      get_user cache u chat avatarOf ≠ some (create_empty_user i)) := by
  cases u with
  | some e =>
    simp only [participantId, Option.some.injEq] at hid
    subst hid
    constructor
    · intro hmem
      simp [get_user, hmem]
    · intro hmem
      cases e <;> simp [get_user, hmem, create_empty_user]
  | none =>
    cases chat with
    | none => simp [participantId] at hid
    | some c =>
      cases c with
      | user eid bot scam fake deleted un fn ln =>
        simp [participantId, TLEntity.tltitle] at hid
      | chat cid ctitle cun =>
        cases ctitle with
        | none => simp [participantId, TLEntity.tltitle] at hid
        | some t =>
          simp only [participantId, TLEntity.tltitle,
            Option.some.injEq] at hid
          subst hid
          constructor
          · intro hmem
            simp [get_user, TLEntity.tltitle, hmem]
          · intro hmem
            simp [get_user, TLEntity.tltitle, hmem, create_empty_user]
      | channel cid ctitle cun cs cf =>
        cases ctitle with
        | none => simp [participantId, TLEntity.tltitle] at hid
        | some t =>
          simp only [participantId, TLEntity.tltitle,
            Option.some.injEq] at hid
          subst hid
          constructor
          · intro hmem
            simp [get_user, TLEntity.tltitle, hmem]
          · intro hmem
            simp [get_user, TLEntity.tltitle, hmem, create_empty_user]
      | channelForbidden cid ctitle =>
        simp only [participantId, TLEntity.tltitle,
          Option.some.injEq] at hid
        subst hid
        constructor
        · intro hmem
          simp [get_user, TLEntity.tltitle, hmem]
        · intro hmem
          simp [get_user, TLEntity.tltitle, hmem, create_empty_user]

/-- Witness for C10: chat 42 transforms to participant id `-42`; with
`-42` cached, the normalizer returns the all-`None` stub. -/
theorem c10_cached_participant_stub_witness :
    participantId none (some (TLEntity.chat 42 (some "G") none)) =
      some (-42) ∧
    (-42 : Int) ∈ [(-42 : Int)] ∧
    get_user [(-42 : Int)] none (some (TLEntity.chat 42 (some "G") none))
      (fun _ => none) = some (create_empty_user (-42)) :=
  ⟨rfl, by simp,
    (c10_cached_participant_stub [(-42)] none
      (some (TLEntity.chat 42 (some "G") none)) (fun _ => none) (-42)
      rfl).1 (by simp)⟩

/-- C2 amended: `get_messages` yields exactly the stored messages with
`id > last_id` — a permutation of that filter — in ascending id order, and
yields *all* of them when `limit` is `None` (as the exporters call it);
but the Python default for an absent `limit` argument is `500`, so calling
it without a `limit` returns only the first 500 such messages. -/
theorem c2_messages_after_id (msgs : List MsgRow) (last_id : Int) :
    (get_messages msgs none none last_id none).Perm
      (msgs.filter (fun m => decide (last_id < m.id))) ∧
    List.Sorted byIdLe (get_messages msgs none none last_id none) ∧
    get_messages_defaults msgs last_id =
      (get_messages msgs none none last_id none).take 500 := by
  have hpred : (fun m : MsgRow =>
      decide (last_id < m.id) && monthMatches none none m) =
      (fun m : MsgRow => decide (last_id < m.id)) := by
    funext m
    simp [monthMatches]
  have hrows : get_messages msgs none none last_id none =
      (scanById msgs).filter (fun m => decide (last_id < m.id)) := by
    simp only [get_messages, hpred]
  have hsorted : List.Sorted byIdLe
      ((scanById msgs).filter (fun m => decide (last_id < m.id))) :=
    List.Pairwise.filter _ (List.sorted_insertionSort byIdLe msgs)
  refine ⟨?_, ?_, ?_⟩
  · rw [hrows]
    exact (List.perm_insertionSort byIdLe msgs).filter _
  · rw [hrows]
    exact hsorted
  · rw [get_messages_defaults, hrows]
    have h500 : get_messages msgs none none last_id (some 500) =
        (scanById ((scanById msgs).filter
          (fun m => decide (last_id < m.id)))).take 500 := by
      simp only [get_messages, hpred]
      rw [if_neg (by norm_num)]
    rw [h500, scanById, hsorted.insertionSort_eq]

set_option maxRecDepth 100000 in
/-- C2 counterexample: with 501 stored messages of ids 1..501, calling
`get_messages` without a `limit` argument (Python default 500) returns a
capped 500-row prefix, not all 501 remaining messages. -/
theorem c2_default_limit_counterexample :
    (get_messages_defaults c2msgs 0).length = 500 ∧
    (c2msgs.filter (fun m => decide (0 < m.id))).length = 501 :=
  ⟨rfl, rfl⟩

/-- Ranking does not change how many rows of a group there are: filtering
the ranked rows by a day key keeps as many pairs as filtering the rows
themselves. -/
theorem rowNumberFrom_filter_length (off dk : Int) :
    ∀ (xs : List MsgRow) (n : Nat),
      ((rowNumberFrom n xs).filter
        (fun p => localDay off p.2.date == dk)).length =
      (xs.filter (fun x => localDay off x.date == dk)).length := by
  intro xs
  induction xs with
  | nil => intro n; rfl
  | cons x xs ih =>
    intro n
    by_cases hq : localDay off x.date == dk <;>
      simp [rowNumberFrom, List.filter_cons, hq, ih]

/-- The first ranked row of a nonempty day group carries rank
`n + (number of month rows before the day's first message)`: the bare
`rank` column SQLite hands to `PAGE` under `GROUP BY` is evaluated on the
group's first row in subquery order. -/
theorem rowNumberFrom_filter_first (off dk : Int) :
    ∀ (xs : List MsgRow) (n : Nat),
      (∃ x ∈ xs, localDay off x.date = dk) →
      ∃ m rest, (rowNumberFrom n xs).filter
          (fun p => localDay off p.2.date == dk) =
        (n + (xs.takeWhile
          (fun x => !(localDay off x.date == dk))).length, m) :: rest := by
  intro xs
  induction xs with
  | nil =>
    rintro n ⟨x, hx, _⟩
    cases hx
  | cons x xs ih =>
    intro n hex
    by_cases hq : localDay off x.date == dk
    · refine ⟨x, (rowNumberFrom (n + 1) xs).filter
        (fun p => localDay off p.2.date == dk), ?_⟩
      simp [rowNumberFrom, List.filter_cons, List.takeWhile_cons, hq]
    · have hqb : (localDay off x.date == dk) = false := by
        simpa using hq
      have hex' : ∃ y ∈ xs, localDay off y.date = dk := by
        rcases hex with ⟨y, hy, hqy⟩
        rcases List.mem_cons.mp hy with rfl | hmem
        · exact absurd (by simp [hqy]) hq
        · exact ⟨y, hmem, hqy⟩
      rcases ih (n + 1) hex' with ⟨m, rest, hm⟩
      refine ⟨m, rest, ?_⟩
      have harith : n + (List.takeWhile
          (fun y => !(localDay off y.date == dk)) (x :: xs)).length =
          (n + 1) + (List.takeWhile
          (fun y => !(localDay off y.date == dk)) xs).length := by
        rw [List.takeWhile_cons, hqb]
        simp
        omega
      rw [rowNumberFrom, List.filter_cons, harith]
      simpa [hqb] using hm

/-- C3: every `Day` emitted by `get_dayline` carries
`page = ceil(r / page_size)` where `r` is the 1-based rank, among that
month's messages in id order, of the first message falling on that
display-timezone calendar day (`r = 1 +` the number of month messages on
strictly earlier positions). -/
theorem c3_dayline_page (msgs : List MsgRow) (off ym : Int) (psize : Nat)
    (_hps : 0 < psize) (d : DayOut)
    (hd : d ∈ get_dayline msgs off ym psize) :
    d.page = pageOf (1 + ((monthRows msgs off ym).takeWhile
      (fun m => !(localDay off m.date == d.day))).length) psize := by
  simp only [get_dayline] at hd
  obtain ⟨dk, hdk, hmap⟩ := List.mem_map.mp hd
  have hdk' : dk ∈ (monthRows msgs off ym).map
      (fun m => localDay off m.date) := by
    simpa [sortedKeys, List.mem_insertionSort, List.mem_dedup] using hdk
  obtain ⟨m0, hm0, hkey⟩ := List.mem_map.mp hdk'
  obtain ⟨m, rest, heq⟩ := rowNumberFrom_filter_first off dk
    (monthRows msgs off ym) 1 ⟨m0, hm0, hkey⟩
  have hday : d.day = dk := by
    rw [← hmap]
  have hpage : d.page = pageOf
      (1 + ((monthRows msgs off ym).takeWhile
        (fun x => !(localDay off x.date == dk))).length) psize := by
    rw [← hmap]
    simp only [heq]
  rw [hpage, hday]

/-- Witness for C3: page_size 2 and four same-month messages on days
D1,D1,D2,D2 in id order — D2's `Day` is in the dayline with page
`ceil(3/2) = 2` (and the full dayline reads D1↦page 1, D2↦page 2). -/
theorem c3_dayline_page_witness :
    get_dayline exDayMsgs 0 202401 2 =
      [{ day := 19723, count := 2, page := 1 },
       { day := 19724, count := 2, page := 2 }] ∧
    0 < 2 ∧
    ({ day := 19724, count := 2, page := 2 } : DayOut) ∈
      get_dayline exDayMsgs 0 202401 2 ∧
    ({ day := 19724, count := 2, page := 2 } : DayOut).page =
      pageOf (1 + ((monthRows exDayMsgs 0 202401).takeWhile
        (fun m => !(localDay 0 m.date ==
          ({ day := 19724, count := 2, page := 2 } : DayOut).day))).length)
        2 :=
  ⟨by decide, by decide, by decide,
    c3_dayline_page exDayMsgs 0 202401 2 (by decide)
      { day := 19724, count := 2, page := 2 } (by decide)⟩

/-- C5 counterexample: under a non-UTC display timezone (offset +1 h) a
message stored at 2024-01-31 23:30:00 UTC belongs to February's dayline,
so the January dayline counts sum to 0 while `get_message_count(2024, 1)`
— which buckets by the stored UTC month — returns 1. -/
theorem c5_nonutc_counterexample :
    ((get_dayline [msgAt 1 1706743800] 3600 202401 500).map
      DayOut.count).sum = 0 ∧
    get_message_count [msgAt 1 1706743800] 2024 1 = 1 :=
  ⟨by decide, by decide⟩

/- `civilFromDays` is a closed arithmetic routine; keeping it reducible
makes higher-level unification descend into its let/if chain.  The
remaining theorems never unfold it, so it is sealed from here on (kernel
evaluation in the witnesses above is unaffected: they precede this
line). -/
attribute [irreducible] civilFromDays

/-- Splitting a count over a Boolean predicate and its negation covers
the whole list. -/
theorem countP_split {α : Type} (p : α → Bool) (l : List α) :
    l.countP p + l.countP (fun a => !(p a)) = l.length := by
  induction l with
  | nil => rfl
  | cons x xs ih =>
    cases hpx : p x with
    | false =>
      simp only [List.countP_cons, hpx, Bool.not_false, if_true,
        Bool.false_eq_true, if_false, List.length_cons]
      omega
    | true =>
      simp only [List.countP_cons, hpx, Bool.not_true, if_true,
        Bool.false_eq_true, if_false, List.length_cons]
      omega

/-- Summing, over a duplicate-free key list covering a list's keys, the
count of elements with each key gives the list's length: every element is
counted exactly once. -/
theorem sum_countP_keys {α : Type} (key : α → Int) :
    ∀ (keys : List Int), keys.Nodup →
      ∀ (l : List α), (∀ x ∈ l, key x ∈ keys) →
      (keys.map (fun k => l.countP (fun x => key x == k))).sum =
        l.length := by
  intro keys
  induction keys with
  | nil =>
    intro _ l hcov
    have hl : l = [] := by
      cases l with
      | nil => rfl
      | cons x xs =>
        exact absurd (hcov x (List.mem_cons_self x xs))
          (List.not_mem_nil _)
    subst hl
    rfl
  | cons k ks ih =>
    intro hnd l hcov
    obtain ⟨hk, hnd2⟩ := List.nodup_cons.mp hnd
    have hcov2 : ∀ x ∈ l.filter (fun x => !(key x == k)), key x ∈ ks := by
      intro x hx
      obtain ⟨hxl, hxk⟩ := List.mem_filter.mp hx
      rcases List.mem_cons.mp (hcov x hxl) with h | h
      · rw [h] at hxk
        simp at hxk
      · exact h
    have hterm : ∀ k2 ∈ ks, l.countP (fun x => key x == k2)
        = (l.filter (fun x => !(key x == k))).countP
            (fun x => key x == k2) := by
      intro k2 hk2
      rw [List.countP_filter]
      apply List.countP_congr
      intro x _
      have hne : k2 ≠ k := fun hh => hk (hh ▸ hk2)
      constructor
      · intro hxx
        have hx2 : key x = k2 := by simpa using hxx
        simp [hx2, hne]
      · intro hxx
        exact (Bool.and_eq_true_iff.mp hxx).1
    calc ((k :: ks).map
          (fun k2 => l.countP (fun x => key x == k2))).sum
        = l.countP (fun x => key x == k)
          + (ks.map (fun k2 => l.countP (fun x => key x == k2))).sum := by
          simp
      _ = l.countP (fun x => key x == k)
          + (ks.map (fun k2 => (l.filter (fun x => !(key x == k))).countP
              (fun x => key x == k2))).sum := by
          rw [List.map_congr_left hterm]
      _ = l.countP (fun x => key x == k)
          + (l.filter (fun x => !(key x == k))).length := by
          rw [ih hnd2 _ hcov2]
      _ = l.length := by
          rw [← List.countP_eq_length_filter]
          exact countP_split (fun x => key x == k) l

/-- The `sortedKeys` of a key multiset are duplicate-free. -/
theorem sortedKeys_nodup (l : List Int) : (sortedKeys l).Nodup :=
  (List.perm_insertionSort _ _).symm.nodup (List.nodup_dedup _)

/-- `sortedKeys` contain every key of the underlying list. -/
theorem mem_sortedKeys_of_mem {l : List Int} {k : Int} (h : k ∈ l) :
    k ∈ sortedKeys l :=
  (List.mem_insertionSort _).mpr (List.mem_dedup.mpr h)

/-- The timeline counts add up to the total number of stored messages:
`get_timeline` groups every message into exactly one `%Y-%m` bucket. -/
theorem get_timeline_counts_sum (msgs : List MsgRow) (off : Int) :
    ((get_timeline msgs off).map MonthOut.count).sum = msgs.length := by
  rw [get_timeline, List.map_map]
  have hcov : ∀ x ∈ msgs, (fun m => localYM off m.date) x ∈
      sortedKeys (msgs.map (fun m => localYM off m.date)) := by
    intro x hx
    exact mem_sortedKeys_of_mem
      (List.mem_map_of_mem (fun m => localYM off m.date) hx)
  have hterm : ∀ k ∈ sortedKeys (msgs.map (fun m => localYM off m.date)),
      (MonthOut.count ∘ fun k => MonthOut.mk k
        (msgs.countP (fun m => localYM off m.date == k))) k
      = msgs.countP (fun x => localYM off x.date == k) := by
    intro k _
    rfl
  rw [List.map_congr_left hterm]
  exact sum_countP_keys (fun m => localYM off m.date)
    (sortedKeys (msgs.map (fun m => localYM off m.date)))
    (sortedKeys_nodup _) msgs hcov

/-- The dayline counts add up to the number of messages in that
display-timezone month. -/
theorem get_dayline_counts_sum (msgs : List MsgRow) (off ym : Int)
    (psize : Nat) :
    ((get_dayline msgs off ym psize).map DayOut.count).sum =
      msgs.countP (fun m => localYM off m.date == ym) := by
  rw [get_dayline, List.map_map]
  have hterm : ∀ d ∈ sortedKeys ((monthRows msgs off ym).map
      (fun m => localDay off m.date)),
      (DayOut.count ∘ fun d => DayOut.mk d
        ((rowNumberFrom 1 (monthRows msgs off ym)).filter
          (fun p => localDay off p.2.date == d)).length
        (match (rowNumberFrom 1 (monthRows msgs off ym)).filter
            (fun p => localDay off p.2.date == d) with
          | [] => 0
          | p :: _ => pageOf p.1 psize)) d
      = (monthRows msgs off ym).countP
          (fun x => localDay off x.date == d) := by
    intro d _
    simp only [Function.comp_apply]
    rw [rowNumberFrom_filter_length, List.countP_eq_length_filter]
  rw [List.map_congr_left hterm]
  have hcov : ∀ x ∈ monthRows msgs off ym,
      (fun m => localDay off m.date) x ∈
      sortedKeys ((monthRows msgs off ym).map
        (fun m => localDay off m.date)) := by
    intro x hx
    exact mem_sortedKeys_of_mem
      (List.mem_map_of_mem (fun m => localDay off m.date) hx)
  rw [sum_countP_keys (fun m => localDay off m.date)
    (sortedKeys ((monthRows msgs off ym).map
      (fun m => localDay off m.date)))
    (sortedKeys_nodup _) (monthRows msgs off ym) hcov]
  rw [monthRows, ← List.countP_eq_length_filter]
  exact (List.perm_insertionSort byIdLe msgs).countP_eq _

/-- C5 amended: the timeline counts always sum to the total message
count; the dayline counts for a month sum to the number of messages in
that *display-timezone* month, which equals `get_message_count` when the
display timezone is UTC (offset 0) — but `get_message_count` buckets by
the stored UTC month, so the two can differ under a non-UTC offset. -/
theorem c5_timeline_dayline_sums (msgs : List MsgRow) (off ym y mo : Int)
    (psize : Nat) :
    ((get_timeline msgs off).map MonthOut.count).sum = msgs.length ∧
    ((get_dayline msgs off ym psize).map DayOut.count).sum =
      msgs.countP (fun m => localYM off m.date == ym) ∧
    ((get_dayline msgs 0 (y * 100 + mo) psize).map DayOut.count).sum =
      get_message_count msgs y mo := by
  refine ⟨get_timeline_counts_sum msgs off,
    get_dayline_counts_sum msgs off ym psize, ?_⟩
  rw [get_dayline_counts_sum msgs 0 (y * 100 + mo) psize,
    get_message_count]
  apply List.countP_congr
  intro m _
  simp [localYM]

end TgArchive
